import Mathlib

/-!
Shallow embedding of `src/backend/src/ml_src/svrc/disease/crawler_worker.py`
and proofs about it.  Pure computations (section parsing, pagination
arithmetic, backoff delay) are translated directly; database effects are
modelled as explicit state passing over list-valued tables; the HTTP layer is
modelled by an environment function giving the outcome of each attempt.
-/

namespace Crawler

/-! ## HTML document model (for `parse_sections_from_html`)

The parser walks the sibling nodes of the document body: each relevant node is
an `h2`/`h3` heading (level 2 or 3) carrying its heading text, or a content
node carrying its visible text.  This flat sibling list is exactly the
structure `find_all` + `next_siblings` traverses for documents whose headings
are top-level siblings. -/

inductive HNode where
  | heading (lvl : Nat) (txt : String)
  | content (txt : String)
deriving DecidableEq, Repr

def HNode.isHeading : HNode → Bool
  | .heading _ _ => true
  | .content _ => false

def HNode.text : HNode → String
  | .heading _ t => t
  | .content t => t

/-! Executable counterparts of the Python string primitives, written over the
character list underlying a `String` (a Python `str` is a sequence of code
points, which `List Char` models exactly).  `replaceChars` is left-to-right
non-overlapping replacement as in `str.replace`; the fuel argument is the
input length, enough since every step consumes at least one character. -/

def replaceChars (pat rep : List Char) : Nat → List Char → List Char
  | _, [] => []
  | 0, l => l
  | fuel + 1, c :: cs =>
    if pat.isPrefixOf (c :: cs) then
      rep ++ replaceChars pat rep fuel (List.drop pat.length (c :: cs))
    else c :: replaceChars pat rep fuel cs

def strReplace (s pat rep : String) : String :=
  ⟨replaceChars pat.data rep.data s.data.length s.data⟩

/-- Model of `str.strip()`: drop whitespace from both ends. -/
def trimChars (l : List Char) : List Char :=
  ((l.dropWhile Char.isWhitespace).reverse.dropWhile Char.isWhitespace).reverse

def strTrim (s : String) : String := ⟨trimChars s.data⟩

/-- The `KNOWN_SECTION_KEYS` canonical-name table (crawler_worker.py lines 463-468). -/
def KNOWN_SECTION_KEYS : List (String × String) :=
  [("증상", "증상"), ("증세", "증상"), ("임상증상", "증상"),
   ("원인", "원인"), ("병인", "원인"), ("위험요인", "원인"),
   ("치료", "치료"), ("치료법", "치료"), ("치료와 관리", "치료"),
   ("예방", "예방"), ("합병증", "합병증"), ("진단", "진단"), ("검사", "검사")]

/-- `normalize_name` (lines 480-485): strip, drop colons, map the middle dot to a
space, remove edit-link artifacts, strip again, then map through the table. -/
def normalize_name (txt : String) : String :=
  let t := strReplace (strReplace (strTrim txt) ":" "") "·" " "
  let t := strTrim (strReplace (strReplace t "[편집]" "") "편집" "")
  match KNOWN_SECTION_KEYS.lookup t with
  | some v => v
  | none => t

/-- Model of `BeautifulSoup(...).get_text` with a newline separator and
stripping: each node contributes its visible text, stripped, empty pieces
dropped, joined by a newline. -/
def cleanText (nodes : List HNode) : String :=
  ⟨List.intercalate ['\n']
    (((nodes.map HNode.text).map (fun s => trimChars s.data)).filter (fun l => l ≠ []))⟩

/-- One parsed section row `(SECTION_NAME, ORDER_NO, TEXT_CLEAN, TEXT_JSON)`. -/
structure SectionRow where
  name : String
  orderNo : Nat
  textClean : String
  textJson : Option String
deriving DecidableEq, Repr

/-- Body of a section in the code (lines 491-495): all following siblings up to
the next `h2` or `h3` heading, of either level. -/
def takeBody (rest : List HNode) : List HNode :=
  rest.takeWhile (fun n => !n.isHeading)

/-- The per-heading scan of lines 488-495: one `(heading text, body nodes)` pair
for every `h2`/`h3` node, in document order. -/
def sectionsRaw : List HNode → List (String × List HNode)
  | [] => []
  | .heading _ t :: rest => (t, takeBody rest) :: sectionsRaw rest
  | .content _ :: rest => sectionsRaw rest

/-- Lines 487-500: normalize names, clean bodies, skip empty bodies, and number
the kept sections with a counter that increments only on append. -/
def buildBlocks : Nat → List (String × List HNode) → List SectionRow
  | _, [] => []
  | order, (t, body) :: rest =>
    let textClean := cleanText body
    if textClean = "" then buildBlocks order rest
    else ⟨normalize_name t, order, textClean, none⟩ :: buildBlocks (order + 1) rest

/-- `parse_sections_from_html` (lines 470-509): heading-driven blocks, else the
whole visible text as the single section named 본문 when it is nonempty. -/
def parse_sections_from_html (doc : List HNode) : List SectionRow :=
  let blocks := buildBlocks 1 (sectionsRaw doc)
  if blocks.isEmpty then
    let bodyText := cleanText doc
    if bodyText = "" then [] else [⟨"본문", 1, bodyText, none⟩]
  else blocks

/-- Body of a section as the claim states it: all siblings up to the next
heading of the same or higher level (for an `h2`, a later `h3` does NOT end the
section).  Written from the words of the claim, for comparison with the code. -/
def takeBodySpec (lvl : Nat) (rest : List HNode) : List HNode :=
  rest.takeWhile (fun n =>
    match n with
    | .heading l _ => decide (lvl < l)
    | .content _ => true)

/-- The claim-side per-heading scan: same-or-higher-level boundaries. -/
def sectionsRawSpec : List HNode → List (String × List HNode)
  | [] => []
  | .heading lvl t :: rest => (t, takeBodySpec lvl rest) :: sectionsRawSpec rest
  | .content _ :: rest => sectionsRawSpec rest

/-- The section extractor as the claim describes it: identical pipeline but with
same-or-higher-level section boundaries. -/
def parseSectionsClaim (doc : List HNode) : List SectionRow :=
  let blocks := buildBlocks 1 (sectionsRawSpec doc)
  if blocks.isEmpty then
    let bodyText := cleanText doc
    if bodyText = "" then [] else [⟨"본문", 1, bodyText, none⟩]
  else blocks

/-- An independent route to the code boundaries, used to state the amended C8:
scanning from the right, return the leading run of non-heading nodes together
with one block per heading whose body is the segment strictly between it and
the next heading of any level. -/
def splitAtHeadings : List HNode → List HNode × List (String × List HNode)
  | [] => ([], [])
  | .heading _ t :: rest =>
    let p := splitAtHeadings rest
    ([], (t, p.1) :: p.2)
  | .content c :: rest =>
    let p := splitAtHeadings rest
    (HNode.content c :: p.1, p.2)

/-- The amended section extractor: bodies run to the next `h2`/`h3` heading of
any level (the segment between consecutive headings), and the 본문 fallback
fires exactly when no heading produced a nonempty body and the visible text is
nonempty. -/
def parseSectionsAmended (doc : List HNode) : List SectionRow :=
  let blocks := buildBlocks 1 (splitAtHeadings doc).2
  if blocks.isEmpty then
    let bodyText := cleanText doc
    if bodyText = "" then [] else [⟨"본문", 1, bodyText, none⟩]
  else blocks

/-! ## Backoff delay (C9) -/

/-- The delay computed by `backoff_sleep` (lines 76-79):
`min(BACKOFF_BASE ** attempt * (1 + jitter), BACKOFF_MAX_SLEEP)`, where the
code draws `jitter = random.random() * 0.25`, uniform in `[0, 1/4)`. -/
def backoff_delay (base maxSleep : ℚ) (attempt : Nat) (jitter : ℚ) : ℚ :=
  min (base ^ attempt * (1 + jitter)) maxSleep

/-! ## CRAWL_QUEUE rows and the DAO (C1, C4, C5) -/

structure QueueRow where
  qid : Nat
  source : String
  lang : String
  urlOrTitle : String
  status : String
  priority : Int
  enqAt : Nat
  deqAt : Option Nat
  errorMsg : Option String
deriving DecidableEq, Repr

/-- The `source_filter` condition of `claim_queue_one` (lines 113-118):
a filter of ANY or no filter matches everything. -/
def matchesFilter (filter : Option String) (r : QueueRow) : Bool :=
  match filter with
  | some f => if f = "ANY" then true else r.source = f
  | none => true

def pendingCandidates (filter : Option String) (q : List QueueRow) : List QueueRow :=
  q.filter (fun r => r.status = "PENDING" && matchesFilter filter r)

/-- Strict order of `ORDER BY PRIORITY ASC, ENQ_AT ASC`. -/
def better (r b : QueueRow) : Bool :=
  r.priority < b.priority || (r.priority = b.priority && r.enqAt < b.enqAt)

/-- The row selected by `LIMIT 1` under the order: the first minimum in table
order (one deterministic refinement of the unspecified SQL tie order). -/
def selectMin : List QueueRow → Option QueueRow
  | [] => none
  | r :: rest =>
    match selectMin rest with
    | none => some r
    | some b => if better b r then some b else some r

/-- `DAO.claim_queue_one` (lines 109-142): select the single PENDING row under
the order with a row lock, set `STATUS` to FETCHED and `DEQ_AT` to now, and
return the selected row; `none` when no row qualifies. -/
def claim_queue_one (filter : Option String) (now : Nat) (q : List QueueRow) :
    Option QueueRow × List QueueRow :=
  match selectMin (pendingCandidates filter q) with
  | none => (none, q)
  | some r =>
    (some r,
      q.map (fun x =>
        if x.qid = r.qid then { x with status := "FETCHED", deqAt := some now } else x))

/-- `DAO.mark_queue_error` (lines 144-151): status ERROR, message truncated to
480 code points. -/
def mark_queue_error (qid : Nat) (msg : String) (q : List QueueRow) : List QueueRow :=
  q.map (fun x =>
    if x.qid = qid then { x with status := "ERROR", errorMsg := some ⟨msg.data.take 480⟩ }
    else x)

structure PageRow where
  spid : Nat
  source : String
  lang : String
  pageId : Nat
  revId : Nat
  title : String
  url : String
  hash : String
deriving DecidableEq, Repr

structure SectionDbRow where
  sourcePageId : Nat
  name : String
  orderNo : Nat
  textClean : String
  textJson : Option String
deriving DecidableEq, Repr

/-- A fetch result dict as built by `WikiFetcher.fetch_title` (lines 413-418)
or `AmcFetcher.fetch_url` (lines 447-452). -/
structure PageRec where
  source : String
  lang : String
  pageId : Nat
  revId : Nat
  title : String
  url : String
  hash : String
  sections : List SectionRow
deriving DecidableEq, Repr

structure Db where
  queue : List QueueRow
  pages : List PageRow
  sections : List SectionDbRow
  nextSpid : Nat
deriving DecidableEq, Repr

/-- `DAO.upsert_source_page` (lines 162-194): a row matching
`(SOURCE, TITLE, HASH_SHA1)` is returned unchanged, otherwise a fresh row is
inserted under the AUTO_INCREMENT id. -/
def upsert_source_page (rec : PageRec) (db : Db) : Nat × Db :=
  match db.pages.find?
      (fun p => p.source = rec.source && p.title = rec.title && p.hash = rec.hash) with
  | some p => (p.spid, db)
  | none =>
    let spid := db.nextSpid
    (spid,
      { db with
          pages := db.pages ++
            [{ spid := spid, source := rec.source, lang := rec.lang, pageId := rec.pageId,
               revId := rec.revId, title := rec.title, url := rec.url, hash := rec.hash }],
          nextSpid := spid + 1 })

/-- `DAO.insert_sections` (lines 196-211): plain bulk append for the page id. -/
def insert_sections (spid : Nat) (secs : List SectionRow) (db : Db) : Db :=
  { db with
      sections := db.sections ++
        secs.map (fun s =>
          { sourcePageId := spid, name := s.name, orderNo := s.orderNo,
            textClean := s.textClean, textJson := s.textJson }) }

/-- Rows of `SOURCE_SECTION` stored for one page id. -/
def sectionsFor (spid : Nat) (db : Db) : List SectionDbRow :=
  db.sections.filter (fun s => s.sourcePageId = spid)

/-- The persistence steps of `process_one` after a successful fetch
(lines 941-949): upsert the page, then append the sections unconditionally. -/
def persistFetch (rec : PageRec) (db : Db) : Nat × Db :=
  let r := upsert_source_page rec db
  (r.1, insert_sections r.1 rec.sections r.2)

inductive PyResult (α : Type) where
  | ok (val : α)
  | exc (msg : String)
deriving DecidableEq, Repr

/-- `process_one` (lines 917-957): claim one row (`False` when the queue is
empty); an unsupported source is marked ERROR without a fetch; a fetch
exception is caught at the item boundary and marked ERROR; a successful fetch
is persisted with no further update of the queue row. -/
def process_one (fetch : String → String → PyResult PageRec)
    (filter : Option String) (now : Nat) (db : Db) : Bool × Db :=
  match claim_queue_one filter now db.queue with
  | (none, _) => (false, db)
  | (some item, q1) =>
    let db1 := { db with queue := q1 }
    if item.source = "WIKIPEDIA" || item.source = "AMC" then
      match fetch item.source item.urlOrTitle with
      | .ok rec => (true, (persistFetch rec db1).2)
      | .exc m => (true, { db1 with queue := mark_queue_error item.qid m db1.queue })
    else
      (true,
        { db1 with
            queue := mark_queue_error item.qid ("Unsupported SOURCE=" ++ item.source) db1.queue })

def freshQid (q : List QueueRow) : Nat :=
  (q.map QueueRow.qid).foldr max 0 + 1

/-- Modelled from the spec: the CRAWL_QUEUE table DDL is not under src/.  Spec
section 3 makes re-submission of an existing `(source, key)` a no-op and spec
section 8 says uniqueness is honored by the enqueue path, so the
`INSERT ... ON DUPLICATE KEY UPDATE UPDATED_AT=UPDATED_AT` statements
(lines 332-342 and 769-784) are modelled with a unique key on
`(SOURCE, URL_OR_TITLE)`; the duplicate branch assigns `UPDATED_AT` to itself
and changes no column.  New rows take the default status PENDING of spec
section 3. -/
def enqueue_queue (src lang key : String) (prio : Int) (now : Nat) (q : List QueueRow) :
    List QueueRow :=
  if q.any (fun r => r.source = src && r.urlOrTitle = key) then q
  else
    q ++ [{ qid := freshQid q, source := src, lang := lang, urlOrTitle := key,
            status := "PENDING", priority := prio, enqAt := now, deqAt := none,
            errorMsg := none }]

/-- `DAO.enqueue_wiki_title` (lines 332-342). -/
def enqueue_wiki_title (title : String) (prio : Int) (now : Nat) (q : List QueueRow) :
    List QueueRow :=
  enqueue_queue "WIKIPEDIA" "ko" title prio now q

/-! ## Wikipedia category discovery todos (C7) -/

structure WikiTodo where
  todoId : Nat
  seedId : Nat
  category : String
  depth : Nat
  status : String
  pageContinue : Option String
deriving DecidableEq, Repr

def freshTodoId (st : List WikiTodo) : Nat :=
  (st.map WikiTodo.todoId).foldr max 0 + 1

/-- The `INSERT ... ON DUPLICATE KEY UPDATE UPDATED_AT=NOW()` of lines 588-594:
one new PENDING todo per subcategory at the given depth, unique by
`(SEED_ID, CATEGORY)`. -/
def insertSubcatTodo (seedId : Nat) (cat : String) (depth : Nat) (st : List WikiTodo) :
    List WikiTodo :=
  if st.any (fun t => t.seedId = seedId && t.category = cat) then st
  else
    st ++ [{ todoId := freshTodoId st, seedId := seedId, category := cat, depth := depth,
             status := "PENDING", pageContinue := none }]

/-- `DAO.update_wiki_todo` (lines 344-359): update only the status and the
continuation cursor, each only when a value is supplied. -/
def update_wiki_todo (todoId : Nat) (status : Option String) (pageContinue : Option String)
    (st : List WikiTodo) : List WikiTodo :=
  st.map (fun t =>
    if t.todoId = todoId then
      { t with
          status := status.getD t.status,
          pageContinue :=
            match pageContinue with
            | some c => some c
            | none => t.pageContinue }
    else t)

/-- The status transition performed by `DAO.next_todo` (lines 305-319). -/
def claim_todo (todoId : Nat) (st : List WikiTodo) : List WikiTodo :=
  st.map (fun t => if t.todoId = todoId then { t with status := "IN_PROGRESS" } else t)

/-- `WikiCategorySeeder.process_one_todo` (lines 537-602) restricted to its
effect on the todo table; the environment supplies the API results (the
continuation cursor and the subcategory member titles).  With a continuation
the todo stays IN_PROGRESS with the cursor advanced; otherwise, when
subcategory expansion is on and `depth < depth_limit`, one PENDING todo per
subcategory is inserted at `depth + 1`, and the todo is marked DONE. -/
def process_one_todo (depthLimit : Nat) (includeSubcats : Bool) (todo : WikiTodo)
    (contNext : Option String) (subcats : List String) (st : List WikiTodo) : List WikiTodo :=
  match contNext with
  | some c => update_wiki_todo todo.todoId (some "IN_PROGRESS") (some c) st
  | none =>
    let st1 :=
      if includeSubcats && decide (todo.depth < depthLimit) then
        subcats.foldl (fun s cat => insertSubcatTodo todo.seedId cat (todo.depth + 1) s) st
      else st
    update_wiki_todo todo.todoId (some "DONE") none st1

/-- The bootstrap of `run_discovery_generic` (lines 822-842): with zero todos
for the seed, insert the root category todo at depth 0, PENDING. -/
def bootstrapTodos (seedId : Nat) (rootCategory : String) (st : List WikiTodo) : List WikiTodo :=
  if st.isEmpty then
    [{ todoId := 1, seedId := seedId, category := rootCategory, depth := 0,
       status := "PENDING", pageContinue := none }]
  else st

/-- One todo-table step of the Wikipedia discovery loop (lines 847-860): claim
a todo, or process a claimed todo against an arbitrary API response. -/
inductive WikiStep (depthLimit : Nat) (includeSubcats : Bool) :
    List WikiTodo → List WikiTodo → Prop
  | claim (todoId : Nat) (st : List WikiTodo) :
      WikiStep depthLimit includeSubcats st (claim_todo todoId st)
  | process (todo : WikiTodo) (contNext : Option String) (subcats : List String)
      (st : List WikiTodo) (hmem : todo ∈ st) :
      WikiStep depthLimit includeSubcats st
        (process_one_todo depthLimit includeSubcats todo contNext subcats st)

/-- Every todo row in the table has depth at most `d`. -/
def DepthBounded (d : Nat) (st : List WikiTodo) : Prop :=
  ∀ t ∈ st, t.depth ≤ d

/-! ## AMC pagination (C6) -/

/-- A parsed URL as `urlparse` sees it; the query is the ordered key-value list
that `parse_qs` turns into a dict (our listing URLs carry single-valued
parameters). -/
structure Url where
  scheme : String
  netloc : String
  path : String
  query : List (String × String)
deriving DecidableEq, Repr

/-- Python dict assignment `q[k] = v` on the parsed query: replace the value in
place, else append. -/
def setParam : List (String × String) → String → String → List (String × String)
  | [], k, v => [(k, v)]
  | (k1, v1) :: rest, k, v =>
    if k1 = k then (k, v) :: rest else (k1, v1) :: setParam rest k v

/-- `build_url_with_page` (lines 701-706) on the structured URL: set the page
parameter and rebuild.  URLs are compared in this parsed form, which matches
the string comparison of the code on canonically printed URLs. -/
def build_url_with_page (u : Url) (param : String) (n : Nat) : Url :=
  { u with query := setParam u.query param (toString n) }

/-- The `or`-defaulting of `QUERY_PARAM_NAME` (line 708): a missing or empty
name falls back to pageIndex. -/
def resolveParamName : Option String → String
  | some s => if s = "" then "pageIndex" else s
  | none => "pageIndex"

/-- The `or`-defaulting of `page_no` (line 709): a missing or zero page number
falls back to `START_PAGE`, itself defaulting to 1. -/
def resolveCurNo (pageNo : Option Nat) (startPage : Option Nat) : Nat :=
  match pageNo with
  | some n => if n = 0 then startPage.getD 1 else n
  | none => startPage.getD 1

/-- `AmcIndexSeeder.next_page` (lines 698-749).  `lastBtn` and `nextBtn` are
the numbers parsed out of the `fnList` onclick of the last-page and next-page
buttons, `none` when the button or a matching number is absent.  Returns
`(next url, next page number, hint)`, or `none` for termination. -/
def next_page (queryParamName : Option String) (startPage : Option Nat) (currentUrl : Url)
    (lastBtn nextBtn : Option Nat) (pageNo : Option Nat) : Option (Url × Nat × String) :=
  let name := resolveParamName queryParamName
  let curNo := resolveCurNo pageNo startPage
  match lastBtn with
  | some lastNo =>
    let nextNo := curNo + 1
    if lastNo < nextNo then none
    else
      let nextUrl := build_url_with_page currentUrl name nextNo
      if nextUrl = currentUrl then none
      else some (nextUrl, nextNo, "seq(last=" ++ toString lastNo ++ ")")
  | none =>
    match nextBtn with
    | some nextNo =>
      if nextNo ≤ curNo then none
      else
        let nextUrl := build_url_with_page currentUrl name nextNo
        if nextUrl = currentUrl then none
        else some (nextUrl, nextNo, "onclick-fnList")
    | none => none

/-! ## The fetch retry loop (C3) -/

/-- Outcome of one HTTP attempt: a 5xx/429 response; an exception (a 4xx from
`raise_for_status`, a JSON or parse error, a network fault); or a usable
response. -/
inductive AttemptResult where
  | transient
  | permanent (msg : String)
  | success
deriving DecidableEq, Repr

inductive FetchOutcome where
  | ok (attempt : Nat)
  | raised (attempt : Nat) (msg : String)
  | noneReturn
deriving DecidableEq, Repr

/-- The retry loop shared by `WikiFetcher.fetch_title` (lines 380-424),
`AmcFetcher.fetch_url` (lines 432-458) and the seeder HTTP helpers: iterate
`attempt` over `range(MAX_RETRIES)`; a 5xx/429 response sleeps with backoff and
continues (no cap check on this branch); an exception re-raises when
`attempt + 1 >= MAX_RETRIES` and otherwise sleeps with backoff and continues;
a usable response returns.  Falling off the end of the loop returns Python
`None` (`FetchOutcome.noneReturn`).  The second component records the attempt
numbers on which `backoff_sleep` ran. -/
def fetchLoopGo (resp : Nat → AttemptResult) (maxRetries : Nat) :
    Nat → Nat → List Nat → FetchOutcome × List Nat
  | 0, _, sleeps => (.noneReturn, sleeps.reverse)
  | fuel + 1, a, sleeps =>
    match resp a with
    | .transient => fetchLoopGo resp maxRetries fuel (a + 1) (a :: sleeps)
    | .success => (.ok a, sleeps.reverse)
    | .permanent msg =>
      if maxRetries ≤ a + 1 then (.raised a msg, sleeps.reverse)
      else fetchLoopGo resp maxRetries fuel (a + 1) (a :: sleeps)

/-- `fetch_title` / `fetch_url` as the retry loop over the attempt outcomes. -/
def fetch_title (resp : Nat → AttemptResult) (maxRetries : Nat) : FetchOutcome × List Nat :=
  fetchLoopGo resp maxRetries maxRetries 0 []

/-! ## The worker / CLI driver as observed on standard output (C2) -/

/-- One line printed to standard output: the ok flag of the JSON summary and
its payload. -/
structure OutLine where
  ok : Bool
  detail : String
deriving DecidableEq, Repr

inductive Mode where
  | once
  | loop
  | discovery
deriving DecidableEq, Repr

def modeName : Mode → String
  | .once => "once"
  | .loop => "loop"
  | .discovery => "discovery"

/-- Environment of one discovery invocation: whether the seed row exists, and
the outcome of the claim/process loop (the api-call count on completion, or
the unhandled exception). -/
structure DiscoveryEnv where
  seedFound : Bool
  loopResult : PyResult Nat

/-- Environment of one worker invocation: the DAO constructor outcome, the
discovery environment, the outcome of the once/loop try body (processed count),
and the outcome of the `log_run` call inside the except clause. -/
structure MainEnv where
  daoInit : PyResult Unit
  discovery : DiscoveryEnv
  runBody : PyResult Nat
  exceptLog : PyResult Unit

/-- `run_discovery_generic` (lines 806-911) as observed on standard output: a
missing seed raises before anything is printed (lines 813-815, 870-877); an
exception from the claim/process loop propagates with nothing printed; a
completed loop prints the single ok summary (lines 861-863, 907-909). -/
def run_discovery_generic (seedType : String) (env : DiscoveryEnv) :
    PyResult Unit × List OutLine :=
  if !env.seedFound then
    (.exc (if seedType = "WIKI" then "wiki seed not found" else "amc seed not found"), [])
  else
    match env.loopResult with
    | .ok _ => (.ok (), [{ ok := true, detail := "discovery " ++ seedType }])
    | .exc m => (.exc m, [])

/-- `main` (lines 960-1033) as observed on standard output.  Discovery mode
calls `run_discovery_generic` with no surrounding try/except (lines 984-994);
once/loop construct the DAO outside the try (line 997), run the body inside a
try that ends by printing the ok-true summary, and on a caught exception run
`log_run` and print the ok-false summary inside the except clause
(lines 1024-1030). -/
def mainRun (mode : Mode) (seedType : String) (env : MainEnv) : PyResult Unit × List OutLine :=
  match mode with
  | .discovery =>
    match env.daoInit with
    | .exc m => (.exc m, [])
    | .ok _ => run_discovery_generic seedType env.discovery
  | .once | .loop =>
    match env.daoInit with
    | .exc m => (.exc m, [])
    | .ok _ =>
      match env.runBody with
      | .ok _ => (.ok (), [{ ok := true, detail := modeName mode }])
      | .exc m =>
        match env.exceptLog with
        | .ok _ => (.ok (), [{ ok := false, detail := m }])
        | .exc m2 => (.exc m2, [])

/-! ## Concrete instances used by counterexamples and witnesses -/

/-- Queue status of a row id, as a SELECT by primary key. -/
def statusOf (q : List QueueRow) (qid : Nat) : Option String :=
  (q.find? (fun r => r.qid = qid)).map QueueRow.status

/-- The scenario row of the spec: title 편두통 enqueued for the wiki source. -/
def rowMigraine : QueueRow :=
  { qid := 1, source := "WIKIPEDIA", lang := "ko", urlOrTitle := "편두통",
    status := "PENDING", priority := 5, enqAt := 0, deqAt := none, errorMsg := none }

def dbMigraine : Db :=
  { queue := [rowMigraine], pages := [], sections := [], nextSpid := 1 }

def dbEmpty : Db := { queue := [], pages := [], sections := [], nextSpid := 1 }

/-- A successful fetch result for the scenario title. -/
def recMigraine : PageRec :=
  { source := "WIKIPEDIA", lang := "ko", pageId := 0, revId := 123, title := "편두통",
    url := "https://ko.wikipedia.org/wiki/%ED%8E%B8%EB%91%90%ED%86%B5",
    hash := "a94a8fe5ccb19ba61c4c0873d391e987982fbbd3",
    sections := [⟨"증상", 1, "머리가 아프다", none⟩] }

def fetchMigraine : String → String → PyResult PageRec := fun _ _ => .ok recMigraine

/-- The queue after the scenario claim. -/
def qMigraineClaimed : List QueueRow :=
  (claim_queue_one (some "WIKIPEDIA") 10 dbMigraine.queue).2

/-- The root todo created by the bootstrap at depth 0. -/
def rootTodoEx : WikiTodo :=
  { todoId := 1, seedId := 7, category := "분류:질병", depth := 0,
    status := "PENDING", pageContinue := none }

/-- An AMC listing URL already carrying `pageIndex=3`. -/
def amcListUrl : Url :=
  { scheme := "https", netloc := "www.amc.seoul.kr",
    path := "/asan/healthinfo/disease/diseaseList.do", query := [("pageIndex", "3")] }

/-- An AMC listing URL carrying `pageIndex=1`. -/
def amcListUrl1 : Url :=
  { scheme := "https", netloc := "www.amc.seoul.kr",
    path := "/asan/healthinfo/disease/diseaseList.do", query := [("pageIndex", "1")] }

/-- Attempt outcomes: a 404 on the first attempt, then a usable response. -/
def resp404 : Nat → AttemptResult :=
  fun a => if a = 0 then .permanent "404 Client Error" else .success

/-- A discovery invocation whose seed id is absent from the database. -/
def envSeedMissing : MainEnv :=
  { daoInit := .ok (), discovery := { seedFound := false, loopResult := .ok 0 },
    runBody := .ok 0, exceptLog := .ok () }

/-- An invocation in which every effect succeeds. -/
def envAllOk : MainEnv :=
  { daoInit := .ok (), discovery := { seedFound := true, loopResult := .ok 5 },
    runBody := .ok 3, exceptLog := .ok () }

/-- An h2 section followed by an h3 section: the document separating the code
boundaries from the same-or-higher boundaries of the claim. -/
def docCounter : List HNode :=
  [.heading 2 "A", .content "x", .heading 3 "B", .content "y"]

/-- A normalized AMC detail URL as enqueued by the index seeder. -/
def amcDetailUrl : String :=
  "https://www.amc.seoul.kr/asan/healthinfo/disease/diseaseDetail.do?contentId=31578"

end Crawler

namespace Crawler

/-! ### Helper lemmas on the parser (C8 / C10) -/

theorem sectionsRaw_eq_splitAtHeadings :
    ∀ doc : List HNode,
      (splitAtHeadings doc).1 = takeBody doc ∧ (splitAtHeadings doc).2 = sectionsRaw doc := by
  intro doc
  induction doc with
  | nil => exact ⟨rfl, rfl⟩
  | cons n rest ih =>
    cases n with
    | heading lvl t =>
      refine ⟨rfl, ?_⟩
      simp only [splitAtHeadings, sectionsRaw]
      rw [ih.1, ih.2]
    | content c =>
      constructor
      · simp only [splitAtHeadings, takeBody, List.takeWhile, HNode.isHeading]
        rw [ih.1]; rfl
      · simp only [splitAtHeadings, sectionsRaw]
        exact ih.2

theorem buildBlocks_props (l : List (String × List HNode)) :
    ∀ o : Nat, (∀ s ∈ buildBlocks o l, s.textClean ≠ "") ∧
      (buildBlocks o l).map SectionRow.orderNo = List.range' o (buildBlocks o l).length := by
  induction l with
  | nil => intro o; exact ⟨by simp [buildBlocks], by simp [buildBlocks]⟩
  | cons hd tl ih =>
    intro o
    obtain ⟨t, body⟩ := hd
    simp only [buildBlocks]
    split
    · exact ih o
    case isFalse h =>
      constructor
      · intro s hs
        rcases List.mem_cons.mp hs with rfl | hs2
        · exact h
        · exact (ih (o + 1)).1 s hs2
      · simp only [List.map_cons, List.length_cons, (ih (o + 1)).2, List.range'_succ]

/-- C10: every section emitted by the extractor has a nonempty cleaned body
(empty-bodied sections are dropped), and the emitted ORDER_NO values are
exactly the consecutive integers 1, 2, ..., n in document order. -/
theorem c10_sections_nonempty_ordered (doc : List HNode) :
    (∀ s ∈ parse_sections_from_html doc, s.textClean ≠ "") ∧
    (parse_sections_from_html doc).map SectionRow.orderNo =
      List.range' 1 (parse_sections_from_html doc).length := by
  simp only [parse_sections_from_html]
  split
  · split
    · exact ⟨by simp, by simp⟩
    case isFalse h =>
      constructor
      · intro s hs
        rcases List.mem_singleton.mp hs with rfl
        exact h
      · simp [List.range'_succ]
  · exact buildBlocks_props _ 1

/-- C8 counterexample: on an h2 section followed by an h3 section, the code
ends the h2 body at the h3 heading, while the boundary rule of the claim
(all siblings up to the next heading of the same or higher level) would keep
the h3 segment inside the h2 body. -/
theorem c8_boundary_counterexample :
    parse_sections_from_html docCounter ≠ parseSectionsClaim docCounter ∧
    parse_sections_from_html docCounter =
      [⟨"A", 1, "x", none⟩, ⟨"B", 2, "y", none⟩] ∧
    parseSectionsClaim docCounter =
      [⟨"A", 1, "x\nB\ny", none⟩, ⟨"B", 2, "y", none⟩] :=
  ⟨by decide, by decide, by decide⟩

/-- C8 amended: the document is split at every h2/h3 heading: each section body
is the run of sibling nodes between its heading and the next h2 or h3 heading
of either level; when no heading yields a nonempty body the whole visible
text, if nonempty, is emitted as the single section 본문. -/
theorem c8_sections_amended (doc : List HNode) :
    parse_sections_from_html doc = parseSectionsAmended doc := by
  unfold parse_sections_from_html parseSectionsAmended
  rw [(sectionsRaw_eq_splitAtHeadings doc).2]

/-! ### Backoff (C9) -/

/-- C9: the backoff delay equals `min(base ^ attempt * (1 + j), max_sleep)` for
the jitter `j` drawn uniformly from `[0, 1/4)`; it never exceeds `max_sleep`;
and for `base ≥ 1` it is, at every fixed jitter, non-decreasing in the attempt
number (hence so is its expectation over the jitter). -/
theorem c9_backoff_delay (base maxSleep : ℚ) (a a2 : Nat) (j : ℚ)
    (hj0 : 0 ≤ j) (_hj1 : j < 1 / 4) (hb : 1 ≤ base) (ha : a ≤ a2) :
    backoff_delay base maxSleep a j = min (base ^ a * (1 + j)) maxSleep ∧
    backoff_delay base maxSleep a j ≤ maxSleep ∧
    backoff_delay base maxSleep a j ≤ backoff_delay base maxSleep a2 j := by
  refine ⟨rfl, min_le_right _ _, min_le_min ?_ le_rfl⟩
  exact mul_le_mul_of_nonneg_right (pow_le_pow_right₀ hb ha) (by linarith)

theorem c9_backoff_delay_witness :
    backoff_delay (3 / 2) 30 2 (1 / 10) = min (((3 : ℚ) / 2) ^ 2 * (1 + 1 / 10)) 30 ∧
    backoff_delay (3 / 2) 30 2 (1 / 10) ≤ 30 ∧
    backoff_delay (3 / 2) 30 2 (1 / 10) ≤ backoff_delay (3 / 2) 30 3 (1 / 10) :=
  c9_backoff_delay (3 / 2) 30 2 3 (1 / 10) (by norm_num) (by norm_num) (by norm_num)
    (by norm_num)

/-! ### AMC pagination (C6) -/

/-- C6 counterexample: with a last-page indicator of 5 and current page 2, the
next page 3 does not exceed 5, yet the result is none because the rebuilt URL
equals the current URL (the stall guard), against the "none exactly when
current+1 exceeds L" of the claim. -/
theorem c6_stall_guard_counterexample :
    next_page none none amcListUrl (some 5) none (some 2) = none ∧ 2 + 1 ≤ 5 :=
  ⟨by decide, by decide⟩

/-- C6 amended: with a last-page indicator L the advance is to current+1 and
the result is none exactly when current+1 exceeds L or the rebuilt URL equals
the current URL (the stall guard); without one, a returned page comes from the
next-page control and strictly exceeds the current page; with neither hint the
result is none. -/
theorem c6_next_page_amended (qpn : Option String) (sp : Option Nat) (u : Url)
    (nb pageNo : Option Nat) (lastNo nbNo : Nat) :
    (next_page qpn sp u (some lastNo) nb pageNo = none ↔
      lastNo < resolveCurNo pageNo sp + 1 ∨
        build_url_with_page u (resolveParamName qpn) (resolveCurNo pageNo sp + 1) = u) ∧
    (∀ r, next_page qpn sp u (some lastNo) nb pageNo = some r →
        r.2.1 = resolveCurNo pageNo sp + 1) ∧
    (∀ r, next_page qpn sp u none (some nbNo) pageNo = some r →
        resolveCurNo pageNo sp < nbNo ∧ r.2.1 = nbNo) ∧
    next_page qpn sp u none none pageNo = none := by
  refine ⟨?_, ?_, ?_, rfl⟩
  · simp only [next_page]
    split_ifs <;> simp [*]
  · intro r hr
    simp only [next_page] at hr
    split_ifs at hr
    exact congrArg (fun p => p.2.1) (Option.some.inj hr) ▸ rfl
  · intro r hr
    simp only [next_page] at hr
    split_ifs at hr with h1 h2
    refine ⟨Nat.lt_of_not_le h1, ?_⟩
    exact congrArg (fun p => p.2.1) (Option.some.inj hr) ▸ rfl

theorem c6_next_page_amended_witness :
    (next_page none none amcListUrl1 (some 5) none (some 1) = none ↔
      5 < resolveCurNo (some 1) none + 1 ∨
        build_url_with_page amcListUrl1 (resolveParamName none)
          (resolveCurNo (some 1) none + 1) = amcListUrl1) ∧
    (∀ r, next_page none none amcListUrl1 (some 5) none (some 1) = some r →
        r.2.1 = resolveCurNo (some 1) none + 1) ∧
    (∀ r, next_page none none amcListUrl1 none (some 4) (some 1) = some r →
        resolveCurNo (some 1) none < 4 ∧ r.2.1 = 4) ∧
    next_page none none amcListUrl1 none none (some 1) = none :=
  c6_next_page_amended none none amcListUrl1 none (some 1) 5 4

/-! ### Fetch retry policy (C3) -/

/-- C3 counterexample: a permanent 404 on the first attempt is followed by a
backoff sleep and a retry that succeeds on the second attempt (with the default
cap of 4), instead of being surfaced immediately with no retry and no backoff
sleep. -/
theorem c3_permanent_error_retried :
    resp404 0 = AttemptResult.permanent "404 Client Error" ∧
    fetch_title resp404 4 = (FetchOutcome.ok 1, [0]) :=
  ⟨rfl, by decide⟩

theorem fetchLoopGo_transient (resp : Nat → AttemptResult) (mr : Nat)
    (h : ∀ a, a < mr → resp a = AttemptResult.transient) :
    ∀ fuel a sleeps, fuel + a = mr →
      fetchLoopGo resp mr fuel a sleeps =
        (FetchOutcome.noneReturn, sleeps.reverse ++ List.range' a fuel) := by
  intro fuel
  induction fuel with
  | zero => intro a sleeps _; simp [fetchLoopGo]
  | succ n ih =>
    intro a sleeps hsum
    have ha : a < mr := by omega
    simp only [fetchLoopGo, h a ha]
    rw [ih (a + 1) (a :: sleeps) (by omega)]
    simp [List.range'_succ]

/-- C3 amended: 5xx/429 responses always sleep with backoff and retry (with no
cap check on that branch, so that all-transient attempts end with the fetch
returning no result rather than a surfaced error), while permanent fetch errors
(other 4xx and parse exceptions) are also retried with backoff, being surfaced
only when they occur on the final allowed attempt — immediately only when the
retry cap is 1. -/
theorem c3_retry_policy_amended :
    (∀ (resp : Nat → AttemptResult) (mr : Nat),
        (∀ a, a < mr → resp a = AttemptResult.transient) →
        fetch_title resp mr = (FetchOutcome.noneReturn, List.range' 0 mr)) ∧
    (∀ (resp : Nat → AttemptResult) (msg : String),
        resp 0 = AttemptResult.permanent msg →
        fetch_title resp 1 = (FetchOutcome.raised 0 msg, [])) ∧
    (∀ (resp : Nat → AttemptResult) (mr : Nat) (msg : String),
        resp 0 = AttemptResult.permanent msg → resp 1 = AttemptResult.success → 2 ≤ mr →
        fetch_title resp mr = (FetchOutcome.ok 1, [0])) ∧
    (∀ (resp : Nat → AttemptResult) (mr : Nat),
        resp 0 = AttemptResult.transient → resp 1 = AttemptResult.success → 2 ≤ mr →
        fetch_title resp mr = (FetchOutcome.ok 1, [0])) := by
  refine ⟨?_, ?_, ?_, ?_⟩
  · intro resp mr h
    unfold fetch_title
    rw [fetchLoopGo_transient resp mr h mr 0 [] (by omega)]
    simp
  · intro resp msg h0
    simp [fetch_title, fetchLoopGo, h0]
  · intro resp mr msg h0 h1 hmr
    obtain ⟨k, rfl⟩ : ∃ k, mr = k + 2 := ⟨mr - 2, by omega⟩
    show fetchLoopGo resp (k + 2) (k + 1 + 1) 0 [] = _
    simp only [fetchLoopGo, h0, h1]
    rw [if_neg (by omega)]
    simp [fetchLoopGo]
  · intro resp mr h0 h1 hmr
    obtain ⟨k, rfl⟩ : ∃ k, mr = k + 2 := ⟨mr - 2, by omega⟩
    show fetchLoopGo resp (k + 2) (k + 1 + 1) 0 [] = _
    simp [fetchLoopGo, h0, h1]

theorem c3_retry_policy_amended_witness :
    fetch_title (fun _ => AttemptResult.transient) 4 =
      (FetchOutcome.noneReturn, List.range' 0 4) ∧
    fetch_title resp404 1 = (FetchOutcome.raised 0 "404 Client Error", []) ∧
    fetch_title resp404 4 = (FetchOutcome.ok 1, [0]) :=
  ⟨c3_retry_policy_amended.1 (fun _ => AttemptResult.transient) 4 (fun _ _ => rfl),
   c3_retry_policy_amended.2.1 resp404 "404 Client Error" rfl,
   c3_retry_policy_amended.2.2.1 resp404 4 "404 Client Error" rfl rfl (by decide)⟩

/-! ### Enqueue idempotence (C5) -/

/-- C5: enqueuing the same `(source, key)` twice leaves the table of the first
enqueue unchanged (the duplicate changes no column of any row), and the table
holds exactly one row for the pair, with status PENDING. -/
theorem c5_enqueue_idempotent (src lang lang2 key : String) (prio prio2 : Int) (now now2 : Nat)
    (q : List QueueRow)
    (habs : q.any (fun r => r.source = src && r.urlOrTitle = key) = false) :
    enqueue_queue src lang2 key prio2 now2 (enqueue_queue src lang key prio now q) =
      enqueue_queue src lang key prio now q ∧
    ((enqueue_queue src lang key prio now q).filter
        (fun r => r.source = src && r.urlOrTitle = key)).map QueueRow.status = ["PENDING"] := by
  have h1 : enqueue_queue src lang key prio now q =
      q ++ [{ qid := freshQid q, source := src, lang := lang, urlOrTitle := key,
              status := "PENDING", priority := prio, enqAt := now, deqAt := none,
              errorMsg := none }] := by
    simp [enqueue_queue, habs]
  have h2 : q.filter (fun r => r.source = src && r.urlOrTitle = key) = [] := by
    rw [List.filter_eq_nil_iff]
    intro a ha
    have := List.any_eq_false.mp habs a ha
    simpa using this
  constructor
  · rw [h1]
    simp [enqueue_queue, List.any_append]
  · rw [h1, List.filter_append, h2]
    simp

theorem c5_enqueue_idempotent_witness :
    enqueue_queue "AMC" "ko" amcDetailUrl 5 1 (enqueue_queue "AMC" "ko" amcDetailUrl 5 0 []) =
      enqueue_queue "AMC" "ko" amcDetailUrl 5 0 [] ∧
    ((enqueue_queue "AMC" "ko" amcDetailUrl 5 0 []).filter
        (fun r => r.source = "AMC" && r.urlOrTitle = amcDetailUrl)).map QueueRow.status =
      ["PENDING"] :=
  c5_enqueue_idempotent "AMC" "ko" "ko" amcDetailUrl 5 5 0 1 [] rfl

/-! ### Wikipedia discovery depth bound (C7) -/

theorem depthBounded_insertSubcatTodo {d : Nat} (sid : Nat) (cat : String) {dep : Nat}
    {st : List WikiTodo} (h : DepthBounded d st) (hdep : dep ≤ d) :
    DepthBounded d (insertSubcatTodo sid cat dep st) := by
  unfold insertSubcatTodo
  split
  · exact h
  · intro t ht
    rcases List.mem_append.mp ht with h1 | h2
    · exact h t h1
    · rcases List.mem_singleton.mp h2 with rfl
      simpa using hdep

theorem depthBounded_foldl {d : Nat} (sid : Nat) {dep : Nat} (cats : List String)
    {st : List WikiTodo} (h : DepthBounded d st) (hdep : dep ≤ d) :
    DepthBounded d (cats.foldl (fun s cat => insertSubcatTodo sid cat dep s) st) := by
  induction cats generalizing st with
  | nil => exact h
  | cons c cs ih => exact ih (depthBounded_insertSubcatTodo sid c h hdep)

theorem depthBounded_update {d : Nat} (i : Nat) (s pc : Option String) {st : List WikiTodo}
    (h : DepthBounded d st) : DepthBounded d (update_wiki_todo i s pc st) := by
  intro t ht
  rcases List.mem_map.mp ht with ⟨x, hx, rfl⟩
  split <;> exact h x hx

theorem depthBounded_claim_todo {d : Nat} (i : Nat) {st : List WikiTodo}
    (h : DepthBounded d st) : DepthBounded d (claim_todo i st) := by
  intro t ht
  rcases List.mem_map.mp ht with ⟨x, hx, rfl⟩
  split <;> exact h x hx

theorem depthBounded_process_one_todo {d : Nat} (inc : Bool) (todo : WikiTodo)
    (cn : Option String) (sc : List String) {st : List WikiTodo} (h : DepthBounded d st) :
    DepthBounded d (process_one_todo d inc todo cn sc st) := by
  unfold process_one_todo
  cases cn with
  | some c => exact depthBounded_update _ _ _ h
  | none =>
    apply depthBounded_update
    split
    case isTrue hg =>
      have hlt : todo.depth < d := of_decide_eq_true ((Bool.and_eq_true _ _).mp hg).2
      exact depthBounded_foldl _ _ h hlt
    · exact h

theorem depthBounded_wikiStep {d : Nat} {inc : Bool} {st st2 : List WikiTodo}
    (hstep : WikiStep d inc st st2) (h : DepthBounded d st) : DepthBounded d st2 := by
  cases hstep with
  | claim i st => exact depthBounded_claim_todo i h
  | process todo cn sc st hmem => exact depthBounded_process_one_todo inc todo cn sc h

/-- C7: starting from the bootstrap state (whose only todo, the root, sits at
depth 0), every todo-table state reachable by claim/process steps with depth
limit D keeps every row at depth at most D — subcategory todos are inserted at
depth+1 only when the processed todo has depth strictly below D — so with
depth limit 1 no todo is ever created at depth 2. -/
theorem c7_depth_bounded (depthLimit : Nat) (inc : Bool) (seedId : Nat) (rootCat : String)
    (st : List WikiTodo)
    (h : Relation.ReflTransGen (WikiStep depthLimit inc) (bootstrapTodos seedId rootCat []) st) :
    (bootstrapTodos seedId rootCat []).map WikiTodo.depth = [0] ∧
    DepthBounded depthLimit st ∧
    (depthLimit = 1 → ∀ t ∈ st, t.depth ≠ 2) := by
  have hbase : DepthBounded depthLimit (bootstrapTodos seedId rootCat []) := by
    intro t ht
    simp only [bootstrapTodos, List.isEmpty_nil, if_true, List.mem_singleton] at ht
    subst ht
    exact Nat.zero_le _
  have hbound : DepthBounded depthLimit st := by
    induction h with
    | refl => exact hbase
    | tail hsteps hstep ih => exact depthBounded_wikiStep hstep ih
  refine ⟨by simp [bootstrapTodos], hbound, ?_⟩
  intro h1 t ht
  have h2 := hbound t ht
  omega

theorem c7_depth_bounded_witness :
    (bootstrapTodos 7 "분류:질병" []).map WikiTodo.depth = [0] ∧
    DepthBounded 1
      (process_one_todo 1 true rootTodoEx none ["분류:두통"] (bootstrapTodos 7 "분류:질병" [])) ∧
    (1 = 1 →
      ∀ t ∈ process_one_todo 1 true rootTodoEx none ["분류:두통"]
          (bootstrapTodos 7 "분류:질병" []), t.depth ≠ 2) :=
  c7_depth_bounded 1 true 7 "분류:질병" _
    (Relation.ReflTransGen.single
      (WikiStep.process rootTodoEx none ["분류:두통"] (bootstrapTodos 7 "분류:질병" [])
        (by decide)))

/-! ### Queue claim protocol (C1) -/

theorem selectMin_mem {l : List QueueRow} {r : QueueRow} (h : selectMin l = some r) : r ∈ l := by
  induction l with
  | nil => simp [selectMin] at h
  | cons x xs ih =>
    simp only [selectMin] at h
    split at h
    · injection h with h
      exact h ▸ List.mem_cons_self x xs
    · rename_i b heq
      split at h
      · injection h with h
        exact List.mem_cons_of_mem x (ih (h ▸ heq))
      · injection h with h
        exact h ▸ List.mem_cons_self x xs

theorem claim_queue_one_some {f : Option String} {now : Nat} {q q1 : List QueueRow}
    {r : QueueRow} (h : claim_queue_one f now q = (some r, q1)) :
    selectMin (pendingCandidates f q) = some r ∧
    q1 = q.map (fun x =>
      if x.qid = r.qid then { x with status := "FETCHED", deqAt := some now } else x) := by
  unfold claim_queue_one at h
  cases hsel : selectMin (pendingCandidates f q) with
  | none => rw [hsel] at h; cases h
  | some r0 =>
    rw [hsel] at h
    rw [Prod.mk.injEq] at h
    obtain ⟨h1, h2⟩ := h
    obtain rfl := Option.some.inj h1
    exact ⟨rfl, h2.symm⟩

theorem mem_pendingCandidates {f : Option String} {q : List QueueRow} {r : QueueRow}
    (h : r ∈ pendingCandidates f q) :
    r ∈ q ∧ r.status = "PENDING" ∧ matchesFilter f r = true := by
  have h2 := List.mem_filter.mp h
  have h3 := (Bool.and_eq_true _ _).mp h2.2
  exact ⟨h2.1, of_decide_eq_true h3.1, h3.2⟩

theorem statusOf_update_fetched (q : List QueueRow) (i : Nat) (now : Nat)
    (hex : ∃ x ∈ q, x.qid = i) :
    statusOf
      (q.map (fun x =>
        if x.qid = i then { x with status := "FETCHED", deqAt := some now } else x)) i =
      some "FETCHED" := by
  induction q with
  | nil => rcases hex with ⟨x, hx, _⟩; cases hx
  | cons y ys ih =>
    by_cases hy : y.qid = i
    · simp [statusOf, List.find?_cons, hy]
    · have hex2 : ∃ x ∈ ys, x.qid = i := by
        rcases hex with ⟨x, hx, hxi⟩
        rcases List.mem_cons.mp hx with rfl | hmem
        · exact absurd hxi hy
        · exact ⟨x, hmem, hxi⟩
      have := ih hex2
      simpa [statusOf, List.find?_cons, hy] using this

theorem persistFetch_queue (rec : PageRec) (db : Db) :
    ((persistFetch rec db).2).queue = db.queue := by
  simp only [persistFetch, insert_sections, upsert_source_page]
  split <;> rfl

/-- C1 amended: claiming transitions the selected PENDING row to status
FETCHED (the stored literal for the claimed state, not CLAIMED), and the
success path performs no further queue update, so after the results are
persisted the row is still FETCHED — no SUCCESS status is ever written.
FETCHED is terminal in practice: once no PENDING row matches the filter a
further claim returns none and leaves the queue unchanged. -/
theorem c1_claimed_rows_stay_fetched :
    (∀ (f : Option String) (now : Nat) (q : List QueueRow) (r : QueueRow) (q1 : List QueueRow),
        claim_queue_one f now q = (some r, q1) →
        r ∈ q ∧ r.status = "PENDING" ∧ matchesFilter f r = true ∧
          statusOf q1 r.qid = some "FETCHED") ∧
    (∀ (fetch : String → String → PyResult PageRec) (f : Option String) (now : Nat) (db : Db)
        (r : QueueRow) (q1 : List QueueRow) (rec : PageRec),
        claim_queue_one f now db.queue = (some r, q1) →
        fetch r.source r.urlOrTitle = PyResult.ok rec →
        (r.source = "WIKIPEDIA" ∨ r.source = "AMC") →
        (process_one fetch f now db).2.queue = q1) ∧
    (∀ (f : Option String) (now : Nat) (q : List QueueRow),
        pendingCandidates f q = [] → claim_queue_one f now q = (none, q)) := by
  refine ⟨?_, ?_, ?_⟩
  · intro f now q r q1 h
    obtain ⟨hsel, hq⟩ := claim_queue_one_some h
    have hmem := mem_pendingCandidates (selectMin_mem hsel)
    refine ⟨hmem.1, hmem.2.1, hmem.2.2, ?_⟩
    rw [hq]
    exact statusOf_update_fetched q r.qid now ⟨r, hmem.1, rfl⟩
  · intro fetch f now db r q1 rec hclaim hfetch hsrc
    have hcond : (r.source = "WIKIPEDIA" || r.source = "AMC") = true := by
      rcases hsrc with h | h <;> simp [h]
    simp only [process_one, hclaim, hcond, hfetch, if_true]
    exact persistFetch_queue rec { db with queue := q1 }
  · intro f now q h
    unfold claim_queue_one
    rw [h]
    rfl

theorem c1_claimed_rows_stay_fetched_witness :
    (rowMigraine ∈ dbMigraine.queue ∧ rowMigraine.status = "PENDING" ∧
      matchesFilter (some "WIKIPEDIA") rowMigraine = true ∧
      statusOf qMigraineClaimed rowMigraine.qid = some "FETCHED") ∧
    (process_one fetchMigraine (some "WIKIPEDIA") 10 dbMigraine).2.queue = qMigraineClaimed ∧
    claim_queue_one (some "WIKIPEDIA") 20 qMigraineClaimed = (none, qMigraineClaimed) :=
  ⟨c1_claimed_rows_stay_fetched.1 (some "WIKIPEDIA") 10 dbMigraine.queue rowMigraine
      qMigraineClaimed (by decide),
   c1_claimed_rows_stay_fetched.2.1 fetchMigraine (some "WIKIPEDIA") 10 dbMigraine rowMigraine
      qMigraineClaimed recMigraine (by decide) rfl (Or.inl rfl),
   c1_claimed_rows_stay_fetched.2.2 (some "WIKIPEDIA") 20 qMigraineClaimed (by decide)⟩

/-- C1 counterexample: claiming the single PENDING wiki row for title 편두통
sets its status to the literal FETCHED, not CLAIMED, and after the successful
fetch is persisted the row still reads FETCHED — the code writes no SUCCESS
status anywhere. -/
theorem c1_claim_counterexample :
    statusOf qMigraineClaimed 1 = some "FETCHED" ∧
    statusOf (process_one fetchMigraine (some "WIKIPEDIA") 10 dbMigraine).2.queue 1 =
      some "FETCHED" ∧
    ("FETCHED" : String) ≠ "CLAIMED" ∧ ("FETCHED" : String) ≠ "SUCCESS" :=
  ⟨by decide, by decide, by decide, by decide⟩

/-! ### Upsert / section idempotence (C4) -/

/-- C4: processing the same byte-identical fetched record twice returns the
same page id from the upsert both times and inserts no second SOURCE_PAGE row,
but the second run unconditionally appends the section rows again for that
page id: the stored sections double instead of staying at the first
insertion. -/
theorem c4_sections_duplicated_on_reprocess :
    (persistFetch recMigraine dbEmpty).1 = 1 ∧
    (persistFetch recMigraine (persistFetch recMigraine dbEmpty).2).1 = 1 ∧
    ((persistFetch recMigraine (persistFetch recMigraine dbEmpty).2).2).pages.length = 1 ∧
    (sectionsFor 1 (persistFetch recMigraine dbEmpty).2).length = 1 ∧
    (sectionsFor 1 (persistFetch recMigraine (persistFetch recMigraine dbEmpty).2).2).length =
      2 :=
  ⟨by decide, by decide, by decide, by decide, by decide⟩

/-! ### The single JSON summary line (C2) -/

/-- C2 counterexample: a discovery invocation whose seed id has no row raises
out of `main` (which wraps discovery in no try/except) after printing zero
summary lines, instead of printing one ok-false line. -/
theorem c2_discovery_exception_prints_nothing :
    mainRun Mode.discovery "WIKI" envSeedMissing = (PyResult.exc "wiki seed not found", []) :=
  rfl

/-- C2 amended: once/loop invocations print exactly one summary line — ok-true
on success, ok-false for a caught exception provided the error-path `log_run`
itself succeeds; a discovery invocation prints one ok-true line on success but
prints nothing when the seed lookup or the loop raises; a failed DAO
construction prints nothing in any mode. -/
theorem c2_summary_amended (seedType : String) (env : MainEnv) (m : Mode) :
    (∀ n, env.daoInit = PyResult.ok () → env.runBody = PyResult.ok n →
        (mainRun Mode.once seedType env).2 = [{ ok := true, detail := "once" }] ∧
        (mainRun Mode.loop seedType env).2 = [{ ok := true, detail := "loop" }]) ∧
    (∀ msg, env.daoInit = PyResult.ok () → env.runBody = PyResult.exc msg →
        env.exceptLog = PyResult.ok () →
        (mainRun Mode.once seedType env).2 = [{ ok := false, detail := msg }] ∧
        (mainRun Mode.loop seedType env).2 = [{ ok := false, detail := msg }]) ∧
    (∀ n, env.daoInit = PyResult.ok () → env.discovery.seedFound = true →
        env.discovery.loopResult = PyResult.ok n →
        (mainRun Mode.discovery seedType env).2 =
          [{ ok := true, detail := "discovery " ++ seedType }]) ∧
    (∀ msg, env.daoInit = PyResult.ok () → env.discovery.seedFound = true →
        env.discovery.loopResult = PyResult.exc msg →
        mainRun Mode.discovery seedType env = (PyResult.exc msg, [])) ∧
    (∀ msg, env.daoInit = PyResult.exc msg →
        mainRun m seedType env = (PyResult.exc msg, [])) := by
  refine ⟨?_, ?_, ?_, ?_, ?_⟩
  · intro n h1 h2
    exact ⟨by simp [mainRun, modeName, h1, h2], by simp [mainRun, modeName, h1, h2]⟩
  · intro msg h1 h2 h3
    exact ⟨by simp [mainRun, h1, h2, h3], by simp [mainRun, h1, h2, h3]⟩
  · intro n h1 h2 h3
    simp [mainRun, run_discovery_generic, h1, h2, h3]
  · intro msg h1 h2 h3
    simp [mainRun, run_discovery_generic, h1, h2, h3]
  · intro msg h1
    cases m <;> simp [mainRun, h1]

theorem c2_summary_amended_witness :
    ((mainRun Mode.once "WIKI" envAllOk).2 = [{ ok := true, detail := "once" }] ∧
      (mainRun Mode.loop "WIKI" envAllOk).2 = [{ ok := true, detail := "loop" }]) ∧
    (mainRun Mode.discovery "WIKI" envAllOk).2 =
      [{ ok := true, detail := "discovery " ++ "WIKI" }] :=
  ⟨(c2_summary_amended "WIKI" envAllOk Mode.once).1 3 rfl rfl,
   (c2_summary_amended "WIKI" envAllOk Mode.once).2.2.1 5 rfl rfl rfl⟩

end Crawler
